import Mathlib

/-!
Shallow embedding of the core of `src/app.py` and `src/trend_detector.py`
(repository `grapejuceoffical-dotcom/youtube-ai`).

Python strings are modelled as `List Char` (Python strings are character
sequences; all the operations used by the code — slicing, truncation,
concatenation, per-character iteration, `strip` — act on characters).
Python integers are modelled as `Nat`/`Int` (they are unbounded).
A raised Python exception is modelled as `Option`/`Except` with
`none`/`.error` standing for the exception.
-/

namespace App

/-- Model of Python `int(s)` for a string: the decimal value of a
non-empty all-digit string; `none` models the `ValueError` raised on an
empty string or on a string with a non-digit character.  (In
`iso8601_to_seconds` the argument is always built from characters that
passed `ch.isdigit()`, so the non-digit case is unreachable there.) -/
def pyIntStr (s : List Char) : Option Nat :=
  if s = [] ∨ ¬ s.all Char.isDigit then none
  else some (s.foldl (fun a c => a * 10 + (c.toNat - 48)) 0)

/-- The character loop of `iso8601_to_seconds` (src/app.py lines 30-43).
`total` and `num` mirror the Python locals of the same names; the result
is `none` when `int(num)` raises, i.e. when a unit letter `H`/`M`/`S`
arrives while the digit buffer is empty. -/
def isoLoop : List Char → Nat → List Char → Option Nat
  | [], total, _ => some total
  | ch :: rest, total, num =>
    if ch.isDigit then
      isoLoop rest total (num ++ [ch])
    else if ch = 'H' then
      match pyIntStr num with
      | none => none
      | some n => isoLoop rest (total + n * 3600) []
    else if ch = 'M' then
      match pyIntStr num with
      | none => none
      | some n => isoLoop rest (total + n * 60) []
    else if ch = 'S' then
      match pyIntStr num with
      | none => none
      | some n => isoLoop rest (total + n) []
    else
      isoLoop rest total []

/-- Embedding of `iso8601_to_seconds` (src/app.py lines 24-43).  Python's
`not duration or not duration.startswith("PT")` is the test that the
character list is empty or does not begin with `['P', 'T']`;
`duration[2:]` drops the two marker characters. -/
def iso8601_to_seconds (duration : List Char) : Option Nat :=
  if duration = [] ∨ ¬ duration.take 2 = ['P', 'T'] then some 0
  else isoLoop (duration.drop 2) 0 []

/-- Decimal value of a digit buffer, with the empty buffer counting as 0.
Used only by the specification-side scan `specScan`. -/
def digitsVal (s : List Char) : Nat :=
  s.foldl (fun a c => a * 10 + (c.toNat - 48)) 0

/-- Specification-side scan, following the spec's words (spec.md §4.1):
a single left-to-right scan that accumulates digits, multiplies the
accumulated digits by 3600 for `H`, 60 for `M`, 1 for `S`, adds to a
running total, and resets the digit buffer after every non-digit
character.  This is the definition the source is compared against. -/
def specScan : List Char → Nat → List Char → Nat
  | [], total, _ => total
  | ch :: rest, total, num =>
    if ch.isDigit then specScan rest total (num ++ [ch])
    else if ch = 'H' then specScan rest (total + digitsVal num * 3600) []
    else if ch = 'M' then specScan rest (total + digitsVal num * 60) []
    else if ch = 'S' then specScan rest (total + digitsVal num * 1) []
    else specScan rest total []

/-- Specification-side parser: 0 for empty or non-`PT` input, otherwise
the `specScan` of the body. -/
def specParse (duration : List Char) : Nat :=
  if duration = [] ∨ ¬ duration.take 2 = ['P', 'T'] then 0
  else specScan (duration.drop 2) 0 []

/-- Predicate `unitOk body hasDigits` holds when, scanning `body` with a digit
buffer that is currently non-empty iff `hasDigits`, every recognized
unit letter `H`/`M`/`S` is reached with a non-empty digit buffer, so
`int(num)` never sees the empty string. -/
def unitOk : List Char → Bool → Bool
  | [], _ => true
  | ch :: rest, hasDigits =>
    if ch.isDigit then unitOk rest true
    else if ch = 'H' ∨ ch = 'M' ∨ ch = 'S' then hasDigits && unitOk rest false
    else unitOk rest false

/-! ## Data model of the enrichment pipeline (src/app.py) -/

/-- A video candidate dict as built by `yt_search` / `yt_trending`
(src/app.py lines 116-126 and 150-160): its keys are fixed there, so it
is modelled as a record with one field per key. -/
structure Video where
  id : String
  title : List Char
  channel : List Char
  description : List Char
  thumb : Option String
  views : Option Nat
  likes : Option Nat
  duration : Nat
  link : String
deriving DecidableEq, Repr

/-- A JSON value found in the `relevance` field of a parsed reply:
either a value Python's `int()` converts (carried as that integer) or a
value on which `int()` raises. -/
inductive RelVal where
  | num (n : Int)
  | nonnum
deriving DecidableEq, Repr

/-- Python `int(x)` on a relevance value; `none` models the raised
`ValueError` / `TypeError` caught at line 210 of src/app.py. -/
def pyIntOf : RelVal → Option Int
  | .num n => some n
  | .nonnum => none

/-- A dict returned by a successful `json.loads` at line 201 of
src/app.py, projected to the three keys the code reads (`summary`,
`relevance`, `why`); `none` models a missing key.  Extra keys of the
same dict are treated by the dict-level model `dictMerge` below. -/
structure Payload where
  summary : Option (List Char)
  relevance : Option RelVal
  why : Option (List Char)
deriving DecidableEq, Repr

/-- Python `str.strip()`: remove leading and trailing whitespace. -/
def pyStrip (s : List Char) : List Char :=
  ((s.dropWhile Char.isWhitespace).reverse.dropWhile Char.isWhitespace).reverse

/-- Lines 206-211 of src/app.py:
`r = int(parsed.get("relevance", 0)); parsed["relevance"] = max(0, min(100, r))`
with any exception giving 0.  A missing key yields the default `0`, and
`int(0) = 0`. -/
def clampRelevance (rv : Option RelVal) : Int :=
  match rv with
  | none => max 0 (min 100 0)
  | some v =>
    match pyIntOf v with
    | some r => max 0 (min 100 r)
    | none => 0

/-- The post-processed reply of one summarization call: the `summary`,
`relevance` and `why` entries of `parsed` after lines 198-215 of
src/app.py. -/
structure Annot where
  summary : List Char
  relevance : Int
  why : List Char
deriving DecidableEq, Repr

/-- Lines 198-215 of src/app.py: defensive parse of the model reply text
`content`, then clamping and truncation.  `parse` abstracts
`json.loads` (`none` = the parse raised); on failure the code keeps the
default dict `{"summary": "", "relevance": 0, "why": ""}` and overwrites
its summary with `content.strip()`. -/
def summarize_post (parse : List Char → Option Payload) (content : List Char) :
    Annot :=
  let stripped := pyStrip content
  let parsed : Payload :=
    match parse stripped with
    | some p => p
    | none => { summary := some stripped, relevance := some (.num 0), why := some [] }
  { summary := (parsed.summary.getD []).take 220
    relevance := clampRelevance parsed.relevance
    why := (parsed.why.getD []).take 120 }

/-- The fallback dict substituted at line 270 of src/app.py when a
summarization task raised: `{"summary": "Summary unavailable.", "relevance": 0, "why": ""}`. -/
def fallbackAnnot : Annot :=
  { summary := "Summary unavailable.".data, relevance := 0, why := [] }

/-- An enriched item `{**v, **s}` (line 271 of src/app.py), at the level
of the fixed keys read downstream; the general dict-level merge is
`dictMerge` below. -/
structure Enriched where
  video : Video
  summary : List Char
  relevance : Int
  why : List Char
deriving DecidableEq, Repr

/-- Line 271 of src/app.py: merge a video dict with a post-processed
summary dict. -/
def mergeItem (v : Video) (a : Annot) : Enriched :=
  ⟨v, a.summary, a.relevance, a.why⟩

/-- Lines 268-271 of src/app.py: an element of `summaries` that is an
exception (`.error`) is replaced by the fallback dict before merging. -/
def combineOne (v : Video) (s : Except Unit Annot) : Enriched :=
  match s with
  | .error _ => mergeItem v fallbackAnnot
  | .ok a => mergeItem v a

/-- Lines 263-264 of src/app.py:
`tasks = [summarize_video(v, query_text) for v in videos]` followed by
`summaries = await asyncio.gather(*tasks, return_exceptions=True)`.
`call i v` models the i-th task's network call returning the raw reply
text, `.error` an exception raised inside the task and caught by
`return_exceptions=True`; the gathered list is in task order. -/
def gatherSummaries (parse : List Char → Option Payload)
    (call : Nat → Video → Except Unit (List Char)) :
    Nat → List Video → List (Except Unit Annot)
  | _, [] => []
  | i, v :: vs =>
    ((call i v).map (summarize_post parse)) :: gatherSummaries parse call (i + 1) vs

/-- Lines 262-271 of src/app.py: gather all summaries, then combine each
video with its summary (or the fallback) via `zip`. -/
def enrichAll (parse : List Char → Option Payload)
    (call : Nat → Video → Except Unit (List Char)) (videos : List Video) :
    List Enriched :=
  (videos.zip (gatherSummaries parse call 0 videos)).map fun vs =>
    combineOne vs.1 vs.2

/-- The sort key relation of line 273 of src/app.py:
`enriched.sort(key=lambda x: x.get("relevance", 0), reverse=True)`
orders `a` no later than `b` when `b`'s relevance is at most `a`'s. -/
def rankRel (a b : Enriched) : Prop :=
  b.relevance ≤ a.relevance

instance : DecidableRel rankRel := fun a b => Int.decLe b.relevance a.relevance

instance : IsTotal Enriched rankRel :=
  ⟨fun a b => Int.le_total b.relevance a.relevance⟩

instance : IsTrans Enriched rankRel :=
  ⟨fun _ _ _ h1 h2 => le_trans h2 h1⟩

/-- Line 273 of src/app.py.  Python's `list.sort` is documented as a
stable sort, and with `reverse=True` equal-key items still keep their
original order; the embedding uses insertion sort, a stable sort, as the
model of that contract. -/
def rank (l : List Enriched) : List Enriched :=
  l.insertionSort rankRel

/-! ## Dict-level model of the merge at line 271 of src/app.py

The record `Enriched` above fixes the key set; this model keeps the
dicts generic so that extra keys in the parsed reply are visible. -/

/-- A Python value stored in one of the dicts merged at line 271. -/
inductive PyVal where
  | str (s : List Char)
  | int (n : Int)
  | null
deriving DecidableEq, Repr

/-- Lookup in a dict modelled as an association list with authoritative
first occurrence (Python dict keys are unique). -/
def dlookup (k : String) : List (String × PyVal) → Option PyVal
  | [] => none
  | kv :: rest => if kv.1 = k then some kv.2 else dlookup k rest

/-- Python `{**v, **s}` (line 271 of src/app.py): the entries of `v` in
order, each overridden by a same-keyed entry of `s` when present,
followed by the entries of `s` whose keys are not in `v`. -/
def dictMerge (v s : List (String × PyVal)) : List (String × PyVal) :=
  (v.map fun kv => (kv.1, (dlookup kv.1 s).getD kv.2)) ++
    s.filter fun kv => (dlookup kv.1 v).isNone

/-! ## Shorts filter of `yt_search` and `yt_trending` -/

/-- The result loop of `yt_search` (src/app.py lines 106-127), restricted
to what lines 107-109 decide: derive each item's duration in seconds
from its encoded duration string and drop the item when
`shorts_only and dur_sec > 60`.  `α` carries the rest of the API item's
payload; `none` models an exception raised by `int(num)` inside the
duration parser, which would abort the whole fetch. -/
def yt_search_vids {α : Type} (shorts_only : Bool) :
    List (α × List Char) → Option (List (α × Nat))
  | [] => some []
  | (a, code) :: rest => do
    let dur ← iso8601_to_seconds code
    let tail ← yt_search_vids shorts_only rest
    if shorts_only = true ∧ dur > 60 then pure tail else pure ((a, dur) :: tail)

/-- The result loop of `yt_trending` (src/app.py lines 139-161),
restricted to what lines 141-143 decide; it is character-for-character
the same filter as in `yt_search`. -/
def yt_trending_vids {α : Type} (shorts_only : Bool) :
    List (α × List Char) → Option (List (α × Nat))
  | [] => some []
  | (a, code) :: rest => do
    let dur ← iso8601_to_seconds code
    let tail ← yt_trending_vids shorts_only rest
    if shorts_only = true ∧ dur > 60 then pure tail else pure ((a, dur) :: tail)

/-! ## Cost model of the gather at line 264 of src/app.py -/

/-- Elapsed wall time of `await asyncio.gather(*tasks)` (line 264) for
the tasks actually built at line 263: `summarize_video` contains no
await point — its only long operation, the API call at line 190, is a
synchronous blocking call (see the code's own comment at line 189) — so
the event loop runs each task to completion in turn and the gather takes
the sum of the individual call durations. -/
def gather_elapsed (durations : List Nat) : Nat :=
  durations.sum

/-- Modelled from the spec: the latency bound the spec asserts for the
batch — the duration of the slowest single call. -/
def slowest_call (durations : List Nat) : Nat :=
  durations.foldr max 0

/-! ## Sample data used to instantiate theorems on concrete inputs -/

def vidA : Video :=
  ⟨"a1", "t1".data, "c1".data, "d1".data, none, some 10, none, 30, "l1"⟩

def vidB : Video :=
  ⟨"b2", "t2".data, "c2".data, "d2".data, none, none, some 3, 75, "l2"⟩

def vidC : Video :=
  ⟨"c3", "t3".data, "c3".data, "d3".data, none, some 7, none, 61, "l3"⟩

/-- First item of the stability example: relevance 50. -/
def eLow1 : Enriched := ⟨vidA, "s1".data, 50, []⟩

/-- Second item of the stability example: relevance 90. -/
def eHigh : Enriched := ⟨vidB, "s2".data, 90, []⟩

/-- Third item of the stability example: relevance 50, like the first. -/
def eLow2 : Enriched := ⟨vidC, "s3".data, 50, []⟩

/-- A parsed reply whose summary has 300 characters, justification 200
characters, and relevance -5. -/
def payloadNegOversized : Payload :=
  ⟨some (List.replicate 300 'a'), some (.num (-5)), some (List.replicate 200 'b')⟩

/-- A parsed reply with relevance 150. -/
def payloadHigh : Payload := ⟨some "s".data, some (.num 150), some "w".data⟩

/-- A parsed reply whose relevance is not numeric. -/
def payloadNonnum : Payload := ⟨some "s".data, some .nonnum, some "w".data⟩

/-- A parsed reply with no relevance key. -/
def payloadMissing : Payload := ⟨some "s".data, none, some "w".data⟩

/-- A video dict for the dict-merge example. -/
def dictVid : List (String × PyVal) :=
  [("title", .str "original title".data), ("link", .str "https://a".data)]

/-- A parsed reply dict carrying an extra `title` key besides the three
expected ones. -/
def dictReply : List (String × PyVal) :=
  [("summary", .str "s".data), ("relevance", .int 40),
   ("title", .str "replaced title".data)]

end App

namespace TrendDetector

/-- Python `round(x, 2)` over exact rationals: the nearest multiple of
1/100.  (The source computes in floating point; the claims under test
concern the exact value of the formula, modelled here over `ℚ`.) -/
def roundTo2 (q : ℚ) : ℚ :=
  ((round (100 * q) : ℤ) : ℚ) / 100

/-- The denominator of `calculate_trend_score`
(src/trend_detector.py line 42): elapsed seconds divided by 3600,
floored at 1.  `now_s` and `published_s` are the two timestamps in
seconds; the code's `datetime.now` is passed in explicitly. -/
def hours_since (now_s published_s : ℚ) : ℚ :=
  max ((now_s - published_s) / 3600) 1

/-- Embedding of `calculate_trend_score` (src/trend_detector.py lines 40-43):
`round(views / hours_since, 2)`. -/
def calculate_trend_score (views : ℚ) (now_s published_s : ℚ) : ℚ :=
  roundTo2 (views / hours_since now_s published_s)

end TrendDetector

namespace App

/-! ## Helper lemmas -/

theorem pyIntStr_of_digits {s : List Char} (hne : s ≠ [])
    (hd : s.all Char.isDigit) : pyIntStr s = some (digitsVal s) := by
  simp [pyIntStr, digitsVal, hne, hd]

/-- On bodies where every unit letter is preceded by at least one digit,
the source loop never raises and agrees with the specification scan. -/
theorem isoLoop_eq_specScan :
    ∀ (body : List Char) (total : Nat) (num : List Char),
      num.all Char.isDigit →
      unitOk body (decide (num ≠ [])) = true →
      isoLoop body total num = some (specScan body total num) := by
  intro body
  induction body with
  | nil => intro total num _ _; simp [isoLoop, specScan]
  | cons ch rest ih =>
    intro total num hdig hok
    by_cases hch : ch.isDigit
    · have hdig' : (num ++ [ch]).all Char.isDigit := by
        simp [List.all_append, hdig, hch]
      have hok' : unitOk rest true = true := by
        simpa [unitOk, hch] using hok
      have hne : decide ((num ++ [ch]) ≠ []) = true := by simp
      simp only [isoLoop, specScan, if_pos hch]
      exact ih total (num ++ [ch]) hdig' (hne ▸ hok')
    · by_cases hu : ch = 'H' ∨ ch = 'M' ∨ ch = 'S'
      · have hnum : num ≠ [] ∧ unitOk rest false = true := by
          have := hok
          simp only [unitOk, if_neg hch, if_pos hu, Bool.and_eq_true] at this
          rcases this with ⟨h1, h2⟩
          refine ⟨?_, h2⟩
          simpa using h1
        have hps : pyIntStr num = some (digitsVal num) :=
          pyIntStr_of_digits hnum.1 hdig
        have hok0 : unitOk rest (decide (([] : List Char) ≠ [])) = true := by
          simpa using hnum.2
        rcases hu with h | h | h
        all_goals subst h
        · have h2 := ih (total + digitsVal num * 3600) [] (by simp) hok0
          simp only [isoLoop, specScan, if_neg hch, hps]
          simpa using h2
        · have h2 := ih (total + digitsVal num * 60) [] (by simp) hok0
          simp only [isoLoop, specScan, if_neg hch, hps]
          simpa using h2
        · have h2 := ih (total + digitsVal num) [] (by simp) hok0
          simp only [isoLoop, specScan, if_neg hch, hps]
          simpa [Nat.mul_one] using h2
      · have hH : ¬ ch = 'H' := fun h => hu (Or.inl h)
        have hM : ¬ ch = 'M' := fun h => hu (Or.inr (Or.inl h))
        have hS : ¬ ch = 'S' := fun h => hu (Or.inr (Or.inr h))
        have hok' : unitOk rest false = true := by
          simpa [unitOk, hch, hu] using hok
        have hok0 : unitOk rest (decide (([] : List Char) ≠ [])) = true := by
          simpa using hok'
        simp only [isoLoop, specScan, if_neg hch, if_neg hH, if_neg hM, if_neg hS]
        exact ih _ [] (by simp) hok0

/-- Source parser agrees with the specification parser whenever every
unit letter in the body is preceded by a digit. -/
theorem iso8601_eq_specParse (duration : List Char)
    (hok : unitOk (duration.drop 2) false = true) :
    iso8601_to_seconds duration = some (specParse duration) := by
  unfold iso8601_to_seconds specParse
  by_cases h : duration = [] ∨ ¬ duration.take 2 = ['P', 'T']
  · simp [h]
  · rw [if_neg h, if_neg h]
    exact isoLoop_eq_specScan _ 0 [] (by simp) (by simpa using hok)

theorem gatherSummaries_length (parse : List Char → Option Payload)
    (call : Nat → Video → Except Unit (List Char)) :
    ∀ (j : Nat) (videos : List Video),
      (gatherSummaries parse call j videos).length = videos.length := by
  intro j videos
  induction videos generalizing j with
  | nil => rfl
  | cons v vs ih => simp [gatherSummaries, ih]

theorem enrichAll_zip_getElem? (parse : List Char → Option Payload)
    (call : Nat → Video → Except Unit (List Char)) :
    ∀ (videos : List Video) (j i : Nat),
      ((videos.zip (gatherSummaries parse call j videos)).map fun vs =>
          combineOne vs.1 vs.2)[i]? =
        (videos[i]?).map fun v =>
          combineOne v ((call (j + i) v).map (summarize_post parse)) := by
  intro videos
  induction videos with
  | nil => intro j i; simp [gatherSummaries]
  | cons v vs ih =>
    intro j i
    cases i with
    | zero => simp [gatherSummaries]
    | succ i =>
      have h := ih (j + 1) i
      simpa [gatherSummaries, Nat.add_assoc, Nat.add_comm 1 i] using h

theorem enrichAll_getElem? (parse : List Char → Option Payload)
    (call : Nat → Video → Except Unit (List Char)) (videos : List Video)
    (i : Nat) :
    (enrichAll parse call videos)[i]? =
      (videos[i]?).map fun v =>
        combineOne v ((call i v).map (summarize_post parse)) := by
  have h := enrichAll_zip_getElem? parse call videos 0 i
  simpa [enrichAll] using h

theorem clampRelevance_bounds (rv : Option RelVal) :
    0 ≤ clampRelevance rv ∧ clampRelevance rv ≤ 100 := by
  rcases rv with _ | v
  · constructor <;> simp [clampRelevance]
  · rcases v with n | _
    · refine ⟨le_max_left 0 _, max_le (by norm_num) (min_le_left 100 n)⟩
    · constructor <;> simp [clampRelevance, pyIntOf]

theorem summarize_post_bounds (parse : List Char → Option Payload)
    (content : List Char) :
    0 ≤ (summarize_post parse content).relevance
    ∧ (summarize_post parse content).relevance ≤ 100
    ∧ (summarize_post parse content).summary.length ≤ 220
    ∧ (summarize_post parse content).why.length ≤ 120 := by
  unfold summarize_post
  refine ⟨(clampRelevance_bounds _).1, (clampRelevance_bounds _).2,
    List.length_take_le _ _, List.length_take_le _ _⟩

theorem fallbackAnnot_bounds :
    0 ≤ fallbackAnnot.relevance ∧ fallbackAnnot.relevance ≤ 100
    ∧ fallbackAnnot.summary.length ≤ 220 ∧ fallbackAnnot.why.length ≤ 120 := by
  refine ⟨le_refl 0, by norm_num [fallbackAnnot], by decide, by decide⟩

theorem mem_gatherSummaries (parse : List Char → Option Payload)
    (call : Nat → Video → Except Unit (List Char)) {s : Except Unit Annot} :
    ∀ (j : Nat) (videos : List Video), s ∈ gatherSummaries parse call j videos →
      ∃ i v, s = (call i v).map (summarize_post parse) := by
  intro j videos
  induction videos generalizing j with
  | nil => intro h; simp [gatherSummaries] at h
  | cons v vs ih =>
    intro h
    rcases List.mem_cons.mp h with h | h
    · exact ⟨j, v, h⟩
    · exact ih (j + 1) h

theorem enrichAll_item_bounds (parse : List Char → Option Payload)
    (call : Nat → Video → Except Unit (List Char)) (videos : List Video)
    {e : Enriched} (he : e ∈ enrichAll parse call videos) :
    0 ≤ e.relevance ∧ e.relevance ≤ 100
    ∧ e.summary.length ≤ 220 ∧ e.why.length ≤ 120 := by
  unfold enrichAll at he
  rcases List.mem_map.mp he with ⟨⟨v, s⟩, hmem, hcomb⟩
  have hs : s ∈ gatherSummaries parse call 0 videos := (List.of_mem_zip hmem).2
  rcases mem_gatherSummaries parse call 0 videos hs with ⟨i, v', hsv⟩
  subst hsv
  cases hcall : call i v' with
  | error err =>
    rw [hcall] at hcomb
    simp only [Except.map, combineOne] at hcomb
    rw [← hcomb]
    exact fallbackAnnot_bounds
  | ok content =>
    rw [hcall] at hcomb
    simp only [Except.map, combineOne] at hcomb
    rw [← hcomb]
    exact summarize_post_bounds parse content

/-- Stability of the ranking step: the items holding any fixed relevance
value appear in the ranked output exactly as they appeared in the input. -/
theorem rank_filter_eq (l : List Enriched) (r : Int) :
    (rank l).filter (fun x => x.relevance == r)
      = l.filter (fun x => x.relevance == r) := by
  set p : Enriched → Bool := fun x => x.relevance == r with hp
  have hpw : (l.filter p).Pairwise rankRel := by
    apply List.pairwise_of_forall_mem_list
    intro a ha b hb
    have ha2 : a.relevance = r := by
      have := List.of_mem_filter ha
      simpa [hp] using this
    have hb2 : b.relevance = r := by
      have := List.of_mem_filter hb
      simpa [hp] using this
    unfold rankRel
    rw [ha2, hb2]
  have hsub : List.Sublist (l.filter p) (rank l) :=
    List.sublist_insertionSort hpw (List.filter_sublist l)
  have hsub2 : List.Sublist ((l.filter p).filter p) ((rank l).filter p) :=
    hsub.filter p
  have hself : (l.filter p).filter p = l.filter p :=
    List.filter_eq_self.mpr fun a ha => List.of_mem_filter ha
  rw [hself] at hsub2
  have hperm : List.Perm ((rank l).filter p) (l.filter p) :=
    (List.perm_insertionSort rankRel l).filter p
  exact (hsub2.eq_of_length hperm.length_eq.symm).symm

theorem rank_sorted (l : List Enriched) : (rank l).Pairwise rankRel :=
  List.sorted_insertionSort rankRel l

theorem yt_search_vids_true_le {α : Type} :
    ∀ (items : List (α × List Char)) (out : List (α × Nat)),
      yt_search_vids true items = some out → ∀ p ∈ out, p.2 ≤ 60 := by
  intro items
  induction items with
  | nil =>
    intro out h
    simp [yt_search_vids] at h
    subst h
    intro p hp
    simp at hp
  | cons ic rest ih =>
    rcases ic with ⟨a, code⟩
    intro out h
    cases h1 : iso8601_to_seconds code with
    | none => simp [yt_search_vids, h1] at h
    | some dur =>
      cases h2 : yt_search_vids true rest with
      | none => simp [yt_search_vids, h1, h2] at h
      | some tail =>
        by_cases hd : dur > 60
        · have hout : out = tail := by
            simp [yt_search_vids, h1, h2, hd] at h
            exact h.symm
          rw [hout]
          exact ih tail h2
        · have : out = (a, dur) :: tail := by
            simp [yt_search_vids, h1, h2, hd] at h
            exact h.symm
          subst this
          intro p hp
          rcases List.mem_cons.mp hp with h3 | h3
          · subst h3; omega
          · exact ih tail h2 p h3

theorem yt_search_vids_false_length {α : Type} :
    ∀ (items : List (α × List Char)) (out : List (α × Nat)),
      yt_search_vids false items = some out → out.length = items.length := by
  intro items
  induction items with
  | nil =>
    intro out h
    simp [yt_search_vids] at h
    subst h
    rfl
  | cons ic rest ih =>
    rcases ic with ⟨a, code⟩
    intro out h
    cases h1 : iso8601_to_seconds code with
    | none => simp [yt_search_vids, h1] at h
    | some dur =>
      cases h2 : yt_search_vids false rest with
      | none => simp [yt_search_vids, h1, h2] at h
      | some tail =>
        have : out = (a, dur) :: tail := by
          simp [yt_search_vids, h1, h2] at h
          exact h.symm
        subst this
        simp [ih tail h2]

/-- The two fetch loops are the same function. -/
theorem yt_trending_vids_eq_search {α : Type} (shorts_only : Bool) :
    ∀ (items : List (α × List Char)),
      yt_trending_vids shorts_only items = yt_search_vids shorts_only items := by
  intro items
  induction items with
  | nil => rfl
  | cons ic rest ih =>
    rcases ic with ⟨a, code⟩
    simp [yt_trending_vids, yt_search_vids, ih]

theorem dlookup_append (k : String) :
    ∀ (a b : List (String × PyVal)),
      dlookup k (a ++ b) =
        if (dlookup k a).isSome then dlookup k a else dlookup k b := by
  intro a b
  induction a with
  | nil => simp [dlookup]
  | cons kv rest ih =>
    by_cases h : kv.1 = k
    · simp [dlookup, h]
    · simp [dlookup, h, ih]

theorem dlookup_override (k : String) (s : List (String × PyVal))
    {val : PyVal} (hs : dlookup k s = some val) :
    ∀ (v : List (String × PyVal)), (dlookup k v).isSome →
      dlookup k (v.map fun kv => (kv.1, (dlookup kv.1 s).getD kv.2)) = some val := by
  intro v
  induction v with
  | nil => intro h; simp [dlookup] at h
  | cons kv rest ih =>
    intro h
    by_cases hk : kv.1 = k
    · simp [dlookup, hk, hs]
    · have h' : (dlookup k rest).isSome := by
        simpa [dlookup, hk] using h
      simp [dlookup, hk, ih h']

theorem dlookup_map_none (k : String) (s : List (String × PyVal)) :
    ∀ (v : List (String × PyVal)), dlookup k v = none →
      dlookup k (v.map fun kv => (kv.1, (dlookup kv.1 s).getD kv.2)) = none := by
  intro v
  induction v with
  | nil => intro _; simp [dlookup]
  | cons kv rest ih =>
    intro h
    by_cases hk : kv.1 = k
    · simp [dlookup, hk] at h
    · have h' : dlookup k rest = none := by simpa [dlookup, hk] using h
      simp [dlookup, hk, ih h']

theorem dlookup_filter_fresh (k : String) (v : List (String × PyVal))
    (hv : dlookup k v = none) :
    ∀ (s : List (String × PyVal)),
      dlookup k (s.filter fun kv => (dlookup kv.1 v).isNone) = dlookup k s := by
  intro s
  induction s with
  | nil => rfl
  | cons kv rest ih =>
    by_cases hk : kv.1 = k
    · simp [List.filter_cons, hk, hv, dlookup]
    · by_cases hkeep : (dlookup kv.1 v).isNone = true
      · simp [List.filter_cons, hkeep, dlookup, hk, ih]
      · simp [List.filter_cons, hkeep, dlookup, hk, ih]

end App

namespace TrendDetector

theorem roundTo2_nonneg {q : ℚ} (hq : 0 ≤ q) : 0 ≤ roundTo2 q := by
  unfold roundTo2
  apply div_nonneg _ (by norm_num)
  have h1 : (0 : ℤ) ≤ round (100 * q) := by
    rw [round_eq]
    apply Int.floor_nonneg.mpr
    positivity
  exact_mod_cast h1

theorem roundTo2_natCast (n : ℕ) : roundTo2 (n : ℚ) = n := by
  unfold roundTo2
  have h1 : (100 : ℚ) * (n : ℚ) = ((100 * n : ℕ) : ℚ) := by push_cast; ring
  rw [h1, round_natCast]
  push_cast
  rw [mul_comm]
  field_simp

theorem hours_since_ge_one (now_s published_s : ℚ) :
    1 ≤ hours_since now_s published_s :=
  le_max_right _ 1

end TrendDetector

/-! ## The claims -/

namespace App

/-- Claim C1: for every batch of videos and any pattern of per-call
outcomes, the pipeline returns exactly one enriched item per input video
in input order: position `i` holds input video `i` merged with its own
call's post-processed result, a failed call yielding the fallback dict
(placeholder summary, relevance 0, empty justification); no item is
ever dropped and no item is affected by any other call's outcome. -/
theorem claim_C1_pipeline_total (parse : List Char → Option Payload)
    (call : Nat → Video → Except Unit (List Char)) (videos : List Video) :
    (enrichAll parse call videos).length = videos.length
    ∧ (∀ i v, videos[i]? = some v →
        (enrichAll parse call videos)[i]? =
          some (combineOne v ((call i v).map (summarize_post parse))))
    ∧ (∀ i v, videos[i]? = some v → call i v = Except.error () →
        (enrichAll parse call videos)[i]? = some (mergeItem v fallbackAnnot)) := by
  refine ⟨?_, ?_, ?_⟩
  · simp [enrichAll, gatherSummaries_length]
  · intro i v hv
    rw [enrichAll_getElem?, hv]
    rfl
  · intro i v hv herr
    rw [enrichAll_getElem?, hv]
    simp [herr, combineOne, Except.map]

/-- Witness for C1: a concrete two-video batch whose first call fails. -/
theorem claim_C1_witness :
    (enrichAll (fun _ => none)
        (fun i _ => if i = 0 then Except.error () else Except.ok "ok".data)
        [vidA, vidB]).length = 2
    ∧ (enrichAll (fun _ => none)
        (fun i _ => if i = 0 then Except.error () else Except.ok "ok".data)
        [vidA, vidB])[0]? = some (mergeItem vidA fallbackAnnot) :=
  ⟨(claim_C1_pipeline_total _ _ _).1,
   (claim_C1_pipeline_total _ _ _).2.2 0 vidA rfl rfl⟩

/-- Claim C2: ranking sorts by relevance descending and is stable — the
items holding any fixed relevance value keep their input order — and on
the 3-item input with relevances [50, 90, 50] it produces the order
[item 2, item 1, item 3]. -/
theorem claim_C2_rank_stable :
    (∀ (l : List Enriched) (r : Int),
        (rank l).filter (fun x => x.relevance == r)
          = l.filter (fun x => x.relevance == r))
    ∧ (∀ l : List Enriched, (rank l).Pairwise rankRel)
    ∧ rank [eLow1, eHigh, eLow2] = [eHigh, eLow1, eLow2] :=
  ⟨rank_filter_eq, rank_sorted, by decide⟩

set_option maxRecDepth 4000 in
/-- Claim C3: every enriched item carries an integer relevance in
[0, 100] (relevances -5 and 150 from the reply become 0 and 100, and
non-numeric or missing relevance becomes 0), a summary of at most 220
characters (a 300-character summary is truncated to exactly 220) and a
justification of at most 120 characters (200 truncated to exactly 120). -/
theorem claim_C3_clamp_truncate :
    (∀ (parse : List Char → Option Payload)
        (call : Nat → Video → Except Unit (List Char)) (videos : List Video),
        ∀ e ∈ enrichAll parse call videos,
          0 ≤ e.relevance ∧ e.relevance ≤ 100
          ∧ e.summary.length ≤ 220 ∧ e.why.length ≤ 120)
    ∧ (summarize_post (fun _ => some payloadNegOversized) []).relevance = 0
    ∧ (summarize_post (fun _ => some payloadNegOversized) []).summary.length = 220
    ∧ (summarize_post (fun _ => some payloadNegOversized) []).why.length = 120
    ∧ (summarize_post (fun _ => some payloadHigh) []).relevance = 100
    ∧ (summarize_post (fun _ => some payloadNonnum) []).relevance = 0
    ∧ (summarize_post (fun _ => some payloadMissing) []).relevance = 0 :=
  ⟨fun parse call videos _ he => enrichAll_item_bounds parse call videos he,
   by decide, by decide, by decide, by decide, by decide, by decide⟩

/-- Witness for C3: the enriched item of a one-video batch whose single
call failed satisfies all four bounds. -/
theorem claim_C3_witness :
    0 ≤ (mergeItem vidA fallbackAnnot).relevance
    ∧ (mergeItem vidA fallbackAnnot).relevance ≤ 100
    ∧ (mergeItem vidA fallbackAnnot).summary.length ≤ 220
    ∧ (mergeItem vidA fallbackAnnot).why.length ≤ 120 :=
  claim_C3_clamp_truncate.1 (fun _ => none) (fun _ _ => Except.error ()) [vidA]
    (mergeItem vidA fallbackAnnot) (by decide)

/-- Claim C4 counterexample: on input "PTS" — a non-conforming input
whose unit letter is preceded by no digits — the parser raises a
`ValueError` from `int("")` (modelled as `none`) instead of returning an
integer, so "never raises" fails as stated. -/
theorem claim_C4_counterexample :
    iso8601_to_seconds "PTS".data = none := by decide

/-- Claim C4 as amended: empty input and input not starting with "PT"
yield 0 without raising, and every input whose recognized unit letters
(H, M, S) are each preceded by at least one digit since the last
non-digit — unrecognized letters and trailing garbage allowed anywhere —
yields an integer without raising; a bare unit letter raises. -/
theorem claim_C4_amended (duration : List Char) :
    (duration = [] ∨ ¬ duration.take 2 = ['P', 'T'] →
       iso8601_to_seconds duration = some 0)
    ∧ (unitOk (duration.drop 2) false = true →
       (iso8601_to_seconds duration).isSome = true) := by
  constructor
  · intro h
    unfold iso8601_to_seconds
    rw [if_pos h]
  · intro h
    rw [iso8601_eq_specParse duration h]
    rfl

/-- Witness for the amended C4: a non-conforming input yields 0 and a
conforming-with-garbage input yields an integer, neither raising. -/
theorem claim_C4_witness :
    iso8601_to_seconds "hello".data = some 0
    ∧ (iso8601_to_seconds "PT1Hx2M".data).isSome = true :=
  ⟨(claim_C4_amended "hello".data).1 (by decide),
   (claim_C4_amended "PT1Hx2M".data).2 (by decide)⟩

/-- Claim C5: on every duration code in which each unit letter is
preceded by accumulated digits, the parser returns exactly the integer
computed by the spec's single left-to-right scan (digits accumulated,
weight 3600/60/1 per H/M/S, buffer reset after every non-digit); in
particular "PT1H2M3S" yields 3723, "PT45S" yields 45, "PT12M" yields
720, "" yields 0 and "garbage" yields 0. -/
theorem claim_C5_parser_exact :
    (∀ duration : List Char, unitOk (duration.drop 2) false = true →
        iso8601_to_seconds duration = some (specParse duration))
    ∧ iso8601_to_seconds "PT1H2M3S".data = some 3723
    ∧ iso8601_to_seconds "PT45S".data = some 45
    ∧ iso8601_to_seconds "PT12M".data = some 720
    ∧ iso8601_to_seconds "".data = some 0
    ∧ iso8601_to_seconds "garbage".data = some 0 :=
  ⟨iso8601_eq_specParse, by decide, by decide, by decide, by decide, by decide⟩

/-- Witness for C5 at the concrete code "PT45S". -/
theorem claim_C5_witness :
    iso8601_to_seconds "PT45S".data = some (specParse "PT45S".data) :=
  claim_C5_parser_exact.1 "PT45S".data (by decide)

/-- Claim C7 counterexample: with the reply text " x " — which fails to
parse as JSON (`json.loads(" x ")` raises, so the abstract parse is
`none` on the stripped text) — the stored summary is the stripped text
"x", not the entire raw reply text (truncated to 220), so the claim
fails as stated. -/
theorem claim_C7_counterexample :
    ¬ (summarize_post (fun _ => none) [' ', 'x', ' ']).summary
        = ([' ', 'x', ' '] : List Char).take 220 := by decide

/-- Claim C7 as amended: when the reply text fails to parse as
structured data, the whitespace-stripped raw reply text becomes the
summary (subject to the 220-character truncation), the relevance
defaults to 0 and the justification is empty; the failure is recovered
locally — the post-processing step is total and raises nothing. -/
theorem claim_C7_amended (parse : List Char → Option Payload)
    (content : List Char) (h : parse (pyStrip content) = none) :
    (summarize_post parse content).summary = (pyStrip content).take 220
    ∧ (summarize_post parse content).relevance = 0
    ∧ (summarize_post parse content).why = [] := by
  refine ⟨?_, ?_, ?_⟩ <;> simp [summarize_post, h, clampRelevance, pyIntOf]

/-- Witness for the amended C7 at the unparseable reply "hi". -/
theorem claim_C7_witness :
    (summarize_post (fun _ => none) "hi".data).summary
        = (pyStrip "hi".data).take 220
    ∧ (summarize_post (fun _ => none) "hi".data).relevance = 0
    ∧ (summarize_post (fun _ => none) "hi".data).why = [] :=
  claim_C7_amended (fun _ => none) "hi".data rfl

/-- Claim C8: in both fetch loops, with the shorts flag set every
candidate whose derived duration exceeds 60 seconds is excluded from the
result (concretely, a 61-second candidate is), and with the flag unset
no candidate is excluded on duration (the 61-second candidate is
included). -/
theorem claim_C8_shorts_filter :
    (∀ (α : Type) (items : List (α × List Char)) (out : List (α × Nat)),
        yt_search_vids true items = some out → ∀ p ∈ out, p.2 ≤ 60)
    ∧ (∀ (α : Type) (items : List (α × List Char)) (out : List (α × Nat)),
        yt_search_vids false items = some out → out.length = items.length)
    ∧ (∀ (α : Type) (items : List (α × List Char)) (out : List (α × Nat)),
        yt_trending_vids true items = some out → ∀ p ∈ out, p.2 ≤ 60)
    ∧ (∀ (α : Type) (items : List (α × List Char)) (out : List (α × Nat)),
        yt_trending_vids false items = some out → out.length = items.length)
    ∧ yt_search_vids true [((), "PT1M1S".data)] = some []
    ∧ yt_search_vids false [((), "PT1M1S".data)] = some [((), 61)]
    ∧ yt_trending_vids true [((), "PT1M1S".data)] = some []
    ∧ yt_trending_vids false [((), "PT1M1S".data)] = some [((), 61)] := by
  refine ⟨fun α => yt_search_vids_true_le, fun α => yt_search_vids_false_length,
    ?_, ?_, by decide, by decide, by decide, by decide⟩
  · intro α items out h
    rw [yt_trending_vids_eq_search] at h
    exact yt_search_vids_true_le items out h
  · intro α items out h
    rw [yt_trending_vids_eq_search] at h
    exact yt_search_vids_false_length items out h

/-- Witness for C8: with the flag unset the one-element batch holding a
61-second candidate keeps its length. -/
theorem claim_C8_witness :
    ([((), 61)] : List (Unit × Nat)).length
        = ([((), "PT1M1S".data)] : List (Unit × List Char)).length :=
  claim_C8_shorts_filter.2.1 Unit [((), "PT1M1S".data)] [((), 61)] (by decide)

/-- Claim C9 (documenting the divergence): the tasks gathered at line
264 of src/app.py run sequentially because `summarize_video` contains no
await point, so a batch of two calls of 5 time units each takes 10
units — strictly more than the slowest single call — contradicting the
claimed concurrent-latency bound.  (The join-barrier half of the claim —
every outcome collected, no short-circuit on first error — is the
length-and-order clause proved for C1.) -/
theorem claim_C9_sequential_latency :
    gather_elapsed [5, 5] = 10 ∧ slowest_call [5, 5] = 5
    ∧ ¬ gather_elapsed [5, 5] ≤ slowest_call [5, 5] := by decide

/-- Claim C10: every key of a successfully parsed reply dict — not only
`summary`, `relevance` and `why` — is merged over the video dict at
line 271 of src/app.py and overwrites any same-named video field, so
candidate fields are not guaranteed unchanged by enrichment. -/
theorem claim_C10_dict_merge (v s : List (String × PyVal)) (k : String)
    (val : PyVal) (h : dlookup k s = some val) :
    dlookup k (dictMerge v s) = some val := by
  unfold dictMerge
  rw [dlookup_append]
  cases hv : dlookup k v with
  | some w =>
    have h1 := dlookup_override k s h v (by rw [hv]; rfl)
    rw [h1]
    simp
  | none =>
    have h1 := dlookup_map_none k s v hv
    rw [h1, dlookup_filter_fresh k v hv s]
    simp [h]

/-- Witness for C10: a reply dict carrying an extra `title` key replaces
the video's own title in the merged item. -/
theorem claim_C10_witness :
    dlookup "title" (dictMerge dictVid dictReply)
      = some (.str "replaced title".data) :=
  claim_C10_dict_merge dictVid dictReply "title" (.str "replaced title".data)
    (by decide)

end App

namespace TrendDetector

/-- Claim C6: the denominator of the trend score is at least 1 for every
publishedAt timestamp (including future, clock-skewed ones); for views
≥ 0 and publishedAt up to and including now the score is ≥ 0 and equals
round(views / max(elapsedHours, 1), 2); for publishedAt exactly now the
elapsed hours floor to 1 and the score equals views. -/
theorem claim_C6_trend_score (views : ℕ) (now_s published_s : ℚ) :
    1 ≤ hours_since now_s published_s
    ∧ (published_s ≤ now_s →
        0 ≤ calculate_trend_score (views : ℚ) now_s published_s
        ∧ calculate_trend_score (views : ℚ) now_s published_s
            = roundTo2 ((views : ℚ) / max ((now_s - published_s) / 3600) 1))
    ∧ (published_s = now_s →
        calculate_trend_score (views : ℚ) now_s published_s = (views : ℚ)) := by
  refine ⟨hours_since_ge_one now_s published_s, fun _ => ⟨?_, rfl⟩, fun h => ?_⟩
  · apply roundTo2_nonneg
    apply div_nonneg (Nat.cast_nonneg views)
    exact le_trans zero_le_one (hours_since_ge_one now_s published_s)
  · rw [h]
    have h1 : hours_since now_s now_s = 1 := by
      unfold hours_since
      norm_num
    unfold calculate_trend_score
    rw [h1, div_one, roundTo2_natCast]

/-- Witness for C6: concrete timestamps, one an hour after publication
and one exactly at publication. -/
theorem claim_C6_witness :
    1 ≤ hours_since 3600 0
    ∧ 0 ≤ calculate_trend_score ((5 : ℕ) : ℚ) 3600 0
    ∧ calculate_trend_score ((7 : ℕ) : ℚ) 100 100 = ((7 : ℕ) : ℚ) :=
  ⟨(claim_C6_trend_score 5 3600 0).1,
   ((claim_C6_trend_score 5 3600 0).2.1 (by norm_num)).1,
   (claim_C6_trend_score 7 100 100).2.2 rfl⟩

end TrendDetector
